import Mathlib

/-!
Verification of the Cost-Manager expense-tracking backend.

The development shallowly embeds the repository's controller and model
logic (src/models/costModel.js and the user controller) in Lean:

* JavaScript runtime values reaching the validator are modelled by
  `JSValue` (strings, numbers, NaN, booleans, null, undefined), with JS
  truthiness made explicit.
* Numbers are modelled by `ℚ`; the sole non-finite value the code can
  meet (NaN) gets its own constructor.
* The durable store is modelled by explicit lists of records; every
  store-touching operation takes the collection as an argument and
  returns the (possibly updated) collection, so persistence effects are
  visible in the theorems.
* Dates are modelled on a single timeline as calendar datetimes
  `(year, month, day, msOfDay)` ordered lexicographically, matching how
  `new Date(y, m, d)` values compare under `$gte`/`$lte`.
-/

/-- A JavaScript runtime value as it can reach the validation and
creation code paths: a string, a finite number, NaN, a boolean, `null`
or `undefined`. -/
inductive JSValue where
  | str (s : String)
  | num (q : ℚ)
  | nan
  | jbool (b : Bool)
  | null
  | undefined
deriving DecidableEq, Repr

namespace JSValue

/-- JS truthiness: the empty string, `0`, `NaN`, `false`, `null` and
`undefined` are falsy; everything else modelled here is truthy. -/
def jsTruthy : JSValue → Bool
  | .str s => !(s == "")
  | .num q => !(q == 0)
  | .nan => false
  | .jbool b => b
  | .null => false
  | .undefined => false

/-- Models `typeof v === 'string'`. -/
def isStringType : JSValue → Bool
  | .str _ => true
  | _ => false

/-- Models `typeof v === 'number'` (true for NaN as well). -/
def isNumberType : JSValue → Bool
  | .num _ => true
  | .nan => true
  | _ => false

/-- Models `v <= 0` under JS semantics for a value already known to be
reached only after short-circuiting: numeric comparison, false for NaN
and for non-numbers. -/
def numLeZero : JSValue → Bool
  | .num q => decide (q ≤ 0)
  | _ => false

/-- JS whitespace as recognised by `String.prototype.trim`, restricted
to the ASCII fragment (tab, line feed, vertical tab, form feed, carriage
return, space). -/
def isJsWhitespace (c : Char) : Bool :=
  c == ' ' || c == '\t' || c == '\n' || c == '\r' || c == '\x0b' || c == '\x0c'

/-- Models `s.trim()`: strip leading and trailing whitespace. -/
def jsTrim (s : String) : String :=
  ⟨((s.data.dropWhile isJsWhitespace).reverse.dropWhile isJsWhitespace).reverse⟩

/-- Models `v.trim() === ''`, which the source only evaluates on string
values (the `typeof` guard short-circuits first).  For non-strings the
branch is unreachable and we return `false`. -/
def trimIsEmpty : JSValue → Bool
  | .str s => jsTrim s == ""
  | _ => false

/-- Models `array.includes(v)` for an array of string literals: strict
equality holds only against string values. -/
def strIncludes (l : List String) : JSValue → Bool
  | .str s => l.contains s
  | _ => false

end JSValue

open JSValue

/-- The fixed category whitelist `['food', 'health', 'housing', 'sport',
'education']` from costModel.js. -/
def allowedCategories : List String :=
  ["food", "health", "housing", "sport", "education"]

/-- Shallow embedding of `validateCostInput(description, category,
userid, sum)` from costModel.js: four guarded checks in source order,
returning the first failing rule's message and `none` (JS `null`) when
all pass.  Totality of this Lean function reflects that the source
throws no exception on any input. -/
def validateCostInput (description category userid sum : JSValue) : Option String :=
  if !(jsTruthy description) || !(isStringType description) || trimIsEmpty description then
    some "Description is required and must be a string."
  else if !(strIncludes allowedCategories category) then
    some "Category must be one of: food, health, housing, sport, education."
  else if !(jsTruthy userid) || !(isNumberType userid) || numLeZero userid then
    some "User ID must be a positive number."
  else if !(jsTruthy sum) || !(isNumberType sum) || numLeZero sum then
    some "Sum must be a positive number."
  else
    none

/-- Spec-side rule 1: the description is a non-empty,
non-whitespace-only string. -/
def validDescription : JSValue → Bool
  | .str s => !(jsTrim s == "")
  | _ => false

/-- Spec-side rule 2: the category is a member of the fixed category
set. -/
def validCategory (v : JSValue) : Bool :=
  strIncludes allowedCategories v

/-- Spec-side rules 3 and 4: the value is a positive number. -/
def validPositiveNumber : JSValue → Bool
  | .num q => decide (0 < q)
  | _ => false

/-- The spec's ordered rule list for a given input quadruple: each rule
paired with its error message, in the fixed order description, category,
userId, sum. -/
def ruleChecks (d c u s : JSValue) : List (Bool × String) :=
  [(validDescription d, "Description is required and must be a string."),
   (validCategory c, "Category must be one of: food, health, housing, sport, education."),
   (validPositiveNumber u, "User ID must be a positive number."),
   (validPositiveNumber s, "Sum must be a positive number.")]

/-- First-failure-wins over an ordered rule list: the message of the
first rule whose check is false, `none` when every rule passes. -/
def firstFailure (rules : List (Bool × String)) : Option String :=
  (rules.find? (fun r => !r.1)).map (·.2)

/-- The source's description check agrees with spec rule 1 (a string
that is empty is also whitespace-only after trimming). -/
lemma descCheck_eq (d : JSValue) :
    (!(jsTruthy d) || !(isStringType d) || trimIsEmpty d) = !(validDescription d) := by
  cases d with
  | str s =>
    by_cases h : s = ""
    · subst h; decide
    · simp [jsTruthy, isStringType, trimIsEmpty, validDescription, h]
  | num q => simp [jsTruthy, isStringType, trimIsEmpty, validDescription]
  | nan => rfl
  | jbool b => cases b <;> rfl
  | null => rfl
  | undefined => rfl

/-- The source's positive-number check (truthy, of number type, not
`≤ 0`) agrees with the spec's positive-number rule. -/
lemma numCheck_eq (v : JSValue) :
    (!(jsTruthy v) || !(isNumberType v) || numLeZero v) = !(validPositiveNumber v) := by
  cases v with
  | num q =>
    by_cases h0 : q = 0
    · subst h0; simp [jsTruthy, isNumberType, numLeZero, validPositiveNumber]
    · by_cases hle : q ≤ 0
      · simp [jsTruthy, isNumberType, numLeZero, validPositiveNumber, h0, hle, not_lt.mpr hle]
      · simp [jsTruthy, isNumberType, numLeZero, validPositiveNumber, h0, hle,
              lt_of_not_le hle]
  | str s => simp [jsTruthy, isNumberType, numLeZero, validPositiveNumber]
  | nan => rfl
  | jbool b => cases b <;> rfl
  | null => rfl
  | undefined => rfl

/-- `validateCostInput` computes exactly first-failure-wins over the
spec's ordered rule list. -/
lemma validate_eq_firstFailure (d c u s : JSValue) :
    validateCostInput d c u s = firstFailure (ruleChecks d c u s) := by
  have hd := descCheck_eq d
  have hu := numCheck_eq u
  have hs := numCheck_eq s
  unfold validateCostInput firstFailure ruleChecks
  rw [hd]
  cases hvd : validDescription d with
  | false => simp [List.find?]
  | true =>
    cases hvc : validCategory c with
    | false => simp [List.find?, validCategory] at hvc ⊢; simp [hvc]
    | true =>
      rw [show strIncludes allowedCategories c = validCategory c from rfl, hvc]
      rw [hu]
      cases hvu : validPositiveNumber u with
      | false => simp [List.find?]
      | true =>
        rw [hs]
        cases hvs : validPositiveNumber s with
        | false => simp [List.find?]
        | true => simp [List.find?]

/-- `validateCostInput` succeeds (returns `none`) exactly when all four
rules pass. -/
lemma validate_none_iff (d c u s : JSValue) :
    validateCostInput d c u s = none ↔
      (validDescription d = true ∧ validCategory c = true ∧
       validPositiveNumber u = true ∧ validPositiveNumber s = true) := by
  rw [validate_eq_firstFailure]
  unfold firstFailure ruleChecks
  cases validDescription d <;> cases validCategory c <;>
    cases validPositiveNumber u <;> cases validPositiveNumber s <;>
    simp [List.find?]

/-!
## The durable store

User and expense records as persisted by the store.  Each record's
storage identity (`_id`) is modelled by a `Nat`, distinct from the
user-chosen numeric `id` field.
-/

/-- A persisted User record (userModel.js schema): numeric `id`, names,
birthday timestamp, marital status, plus the storage identity `_id`. -/
structure UserRecord where
  oid : Nat
  id : ℚ
  first_name : String
  last_name : String
  birthday : ℚ
  marital_status : String
deriving DecidableEq, Repr

/-- An expense document as constructed by `createCost` and handed to the
store (costModel.js schema): the `date` field is still the raw JS value
computed by `date || Date.now()`; the store's casting of that value into
a Date is a persistence-engine internal outside the modelled core. -/
structure CostDoc where
  oid : Nat
  description : String
  category : String
  userid : ℚ
  user : Nat
  sum : ℚ
  date : JSValue
deriving DecidableEq, Repr

/-- Result of a service operation: the JS object
`{status, data}` or `{status, error}`. -/
inductive SvcResult (α : Type) where
  | ok (status : Nat) (data : α)
  | err (status : Nat) (error : String)
deriving DecidableEq, Repr

/-- The input object destructured by `createCost` from the request body:
`{description, category, userid, sum, date}`.  The first four fields
have already passed `validateCostInput` in the `addCost` controller, so
they carry their JS types; `date` is never validated and stays a raw JS
value. -/
structure CostData where
  description : String
  category : String
  userid : ℚ
  sum : ℚ
  date : JSValue
deriving DecidableEq, Repr

/-- The payload echoed back by a successful `createCost`, modelled as a
JSON object in key order: an association list of field names to JS
values. -/
def costPayload (saved : CostDoc) : List (String × JSValue) :=
  [("description", .str saved.description),
   ("category", .str saved.category),
   ("userid", .num saved.userid),
   ("sum", .num saved.sum),
   ("date", saved.date)]

/-- Shallow embedding of `createCost(costData)` from costModel.js,
with the store passed explicitly: `users` is the User collection read by
`User.findOne({id: userid})`, `costs` the Cost collection, `newOid` the
storage identity the store would assign, and `now` the current instant
(`Date.now()`).  Returns the JS result together with the Cost
collection after the call. -/
def createCost (users : List UserRecord) (costs : List CostDoc)
    (newOid : Nat) (now : ℚ) (costData : CostData) :
    SvcResult (List (String × JSValue)) × List CostDoc :=
  match users.find? (fun u => u.id == costData.userid) with
  | none => (.err 404 "User not found. Cannot add cost.", costs)
  | some user =>
      let savedCost : CostDoc :=
        { oid := newOid,
          description := costData.description,
          category := costData.category,
          userid := costData.userid,
          user := user.oid,
          sum := costData.sum,
          date := if jsTruthy costData.date then costData.date else .num now }
      (.ok 201 (costPayload savedCost), costs ++ [savedCost])

/-- The input object for `createUser(userData)`. -/
structure UserData where
  id : ℚ
  first_name : String
  last_name : String
  birthday : ℚ
  marital_status : String
deriving DecidableEq, Repr

/-- Shallow embedding of `createUser(userData)` from the user
controller: a `findOne({id})` pre-check rejects an already-used id with
status 400 "User ID already exists." before any write; otherwise the new
record is saved and returned with status 201. -/
def createUser (users : List UserRecord) (newOid : Nat)
    (userData : UserData) : SvcResult UserRecord × List UserRecord :=
  match users.find? (fun u => u.id == userData.id) with
  | some _ => (.err 400 "User ID already exists.", users)
  | none =>
      let savedUser : UserRecord :=
        { oid := newOid,
          id := userData.id,
          first_name := userData.first_name,
          last_name := userData.last_name,
          birthday := userData.birthday,
          marital_status := userData.marital_status }
      (.ok 201 savedUser, users ++ [savedUser])

/-!
## Dates and the report layer

Persisted expense dates are concrete instants on one timeline,
represented as calendar datetimes; `$gte`/`$lte` compare them
chronologically, i.e. lexicographically on
(year, month, day, millisecond-of-day).
-/

/-- An instant: a calendar date plus the millisecond offset within the
day (a `Date` value with its time-of-day). -/
structure DateTime where
  year : Nat
  month : Nat
  day : Nat
  msOfDay : Nat
deriving DecidableEq, Repr

/-- Chronological order on instants (lexicographic on year, month, day,
millisecond-of-day), as used by the store for `$gte`/`$lte` date
filters. -/
def dtLE (a b : DateTime) : Bool :=
  decide (a.year < b.year) ||
    (a.year == b.year &&
      (decide (a.month < b.month) ||
        (a.month == b.month &&
          (decide (a.day < b.day) ||
            (a.day == b.day && decide (a.msOfDay ≤ b.msOfDay))))))

/-- Gregorian leap-year rule, as implemented by the JS `Date`
calendar. -/
def isLeapYear (y : Nat) : Bool :=
  (y % 4 == 0 && y % 100 != 0) || (y % 400 == 0)

/-- Length of calendar month `m` (1-indexed) of year `y` under the JS
`Date` calendar. -/
def daysInMonth (y m : Nat) : Nat :=
  if m == 2 then (if isLeapYear y then 29 else 28)
  else if m == 4 || m == 6 || m == 9 || m == 11 then 30
  else 31

/-- Models `new Date(year, month - 1, 1)` from `fetchMonthlyReport`
(with 1-indexed `month`): midnight starting the first day of the
month. -/
def reportStartDate (year month : Nat) : DateTime :=
  ⟨year, month, 1, 0⟩

/-- Models `new Date(year, month, 0)` from `fetchMonthlyReport` (with
1-indexed `month`): day 0 of the following month normalises to the last
calendar day of `month`, at midnight — the instant the day starts, not
the instant it ends. -/
def reportEndDate (year month : Nat) : DateTime :=
  ⟨year, month, daysInMonth year month, 0⟩

/-- The report query's date condition
`date: { $gte: startDate, $lte: endDate }`. -/
def inReportRange (year month : Nat) (d : DateTime) : Bool :=
  dtLE (reportStartDate year month) d && dtLE d (reportEndDate year month)

/-- A persisted expense as fetched back from the store for the read-only
report and aggregate queries: the `date` field has been cast by the
store into a concrete instant. -/
structure CostRecord where
  oid : Nat
  description : String
  category : String
  userid : ℚ
  user : Nat
  sum : ℚ
  date : DateTime
deriving DecidableEq, Repr

/-- One entry of a monthly report: `{sum, description, day}` with `day`
the calendar day-of-month of the expense's date
(`new Date(cost.date).getDate()`). -/
structure ReportEntry where
  sum : ℚ
  description : String
  day : Nat
deriving DecidableEq, Repr

/-- A JS object with string keys, in key-insertion order. -/
abbrev JSObj (α : Type) : Type := List (String × α)

/-- Models reading `obj[k]`: `none` is JS `undefined`. -/
def objGet {α : Type} (o : JSObj α) (k : String) : Option α :=
  (List.find? (fun p => p.1 == k) o).map (·.2)

/-- Models assigning `obj[k] = v`: an existing key keeps its position,
a new key is appended (JS string-key insertion order). -/
def objSet {α : Type} (o : JSObj α) (k : String) (v : α) : JSObj α :=
  if List.any o (fun p => p.1 == k) then
    List.map (fun p => if p.1 == k then (k, v) else p) o
  else
    o ++ [(k, v)]

/-- The initial `groupedCosts` object: each of the five fixed categories
mapped to an empty array, inserted in the fixed order. -/
def initGrouped : JSObj (List ReportEntry) :=
  List.map (fun cat => (cat, [])) allowedCategories

/-- One iteration of `costs.forEach`:
`groupedCosts[cost.category].push({sum, description, day})`.  When
`cost.category` is not a key of the object, `groupedCosts[...]` is
`undefined` and the member access throws (`none`); the exception is
caught by `fetchMonthlyReport`'s try/catch. -/
def pushCost (obj : JSObj (List ReportEntry)) (c : CostRecord) :
    Option (JSObj (List ReportEntry)) :=
  match objGet obj c.category with
  | none => none
  | some arr =>
      some (objSet obj c.category (arr ++ [⟨c.sum, c.description, c.date.day⟩]))

/-- The whole `costs.forEach` loop over the initialised object. -/
def groupCosts (costs : List CostRecord) : Option (JSObj (List ReportEntry)) :=
  List.foldlM pushCost initGrouped costs

/-- The monthly report's response data: `{userid, year, month, costs}`,
where `costs` is the ordered sequence of single-key objects produced by
`Object.keys(groupedCosts).map(category => ({[category]: ...}))`. -/
structure ReportData where
  userid : ℚ
  year : Nat
  month : Nat
  costs : JSObj (List ReportEntry)
deriving DecidableEq, Repr

/-- Shallow embedding of `fetchMonthlyReport(id, year, month)` from
costModel.js over an explicit Cost collection: filter by numeric user id
and the `$gte`/`$lte` date range, group by category into the
pre-initialised five-key object, and emit the grouped object as an
ordered sequence of single-key objects.  An expense whose category is
not a key of the grouping object makes the loop throw, which the
try/catch turns into a 500 result. -/
def fetchMonthlyReport (id : ℚ) (year month : Nat)
    (costs : List CostRecord) : SvcResult ReportData :=
  match groupCosts (List.filter
      (fun c => c.userid == id && inReportRange year month c.date) costs) with
  | none => .err 500 "Cannot read push of undefined"
  | some grouped => .ok 200 ⟨id, year, month, grouped⟩

/-- The response data of `fetchUserDetails`. -/
structure UserDetails where
  first_name : String
  last_name : String
  id : ℚ
  total : ℚ
deriving DecidableEq, Repr

/-- Shallow embedding of `fetchUserDetails(userId)` from the user
controller: `findOne({id})`, then the aggregate
`[$match: {userid: user.id}, $group: {_id: null, total: {$sum}}]` —
which yields an empty result array when no expense matches, in which
case the code substitutes `0`. -/
def fetchUserDetails (users : List UserRecord) (costs : List CostRecord)
    (userId : ℚ) : SvcResult UserDetails :=
  match users.find? (fun u => u.id == userId) with
  | none => .err 404 "User not found"
  | some user =>
      .ok 200 ⟨user.first_name, user.last_name, user.id,
        if (List.filter (fun c => c.userid == user.id) costs).isEmpty then 0
        else (List.map (fun c => c.sum)
          (List.filter (fun c => c.userid == user.id) costs)).sum⟩

/-- The partial-field object a caller may send to `updateCost`: any
subset of the updatable expense fields, each carried verbatim. -/
structure CostUpdate where
  description : Option String
  category : Option String
  sum : Option ℚ
  date : Option DateTime
deriving DecidableEq, Repr

/-- The store's partial merge for `findByIdAndUpdate`: supplied fields
overwrite, absent fields keep the stored value.  No validation predicate
is consulted anywhere. -/
def applyUpdate (c : CostRecord) (upd : CostUpdate) : CostRecord :=
  { c with
    description := upd.description.getD c.description,
    category := upd.category.getD c.category,
    sum := upd.sum.getD c.sum,
    date := upd.date.getD c.date }

/-- Shallow embedding of `updateCost(costId, updateData)` from
costModel.js: `Cost.findByIdAndUpdate(costId, updateData, {new: true})`
merges the partial fields into the record whose storage identity is
`costId` and returns the updated document, or yields the 404 result when
no record matches.  Returns the JS result together with the Cost
collection after the call. -/
def updateCost (costs : List CostRecord) (costId : Nat)
    (updData : CostUpdate) : SvcResult CostRecord × List CostRecord :=
  match costs.find? (fun c => c.oid == costId) with
  | none => (.err 404 "Cost not found.", costs)
  | some found =>
      (.ok 200 (applyUpdate found updData),
       List.map (fun c => if c.oid == costId then applyUpdate c updData else c) costs)

/-!
## Lemmas about the JS-object grouping loop
-/

lemma objGet_isSome_of_mem {α : Type} (o : JSObj α) (k : String)
    (h : k ∈ List.map Prod.fst o) : (objGet o k).isSome := by
  unfold objGet
  obtain ⟨p, hp, hpk⟩ := List.mem_map.mp h
  have hf : (List.find? (fun p => p.1 == k) o).isSome :=
    List.find?_isSome.mpr ⟨p, hp, by simp [hpk]⟩
  cases hfind : List.find? (fun p => p.1 == k) o with
  | none => rw [hfind] at hf; exact absurd hf (by simp)
  | some r => simp [hfind]

lemma objSet_keys {α : Type} (o : JSObj α) (k : String) (v : α)
    (h : k ∈ List.map Prod.fst o) :
    List.map Prod.fst (objSet o k v) = List.map Prod.fst o := by
  unfold objSet
  have hany : List.any o (fun p => p.1 == k) = true := by
    rw [List.any_eq_true]
    obtain ⟨p, hp, hpk⟩ := List.mem_map.mp h
    exact ⟨p, hp, by simp [hpk]⟩
  rw [if_pos hany, List.map_map]
  apply List.map_congr_left
  intro p _
  by_cases hpk : p.1 = k
  · simp [Function.comp_apply, hpk]
  · simp [Function.comp_apply, hpk]

lemma find?_map_set_ne {α : Type} (t : List (String × α)) (k k2 : String)
    (v : α) (h : k ≠ k2) :
    List.find? (fun p => p.1 == k)
        (List.map (fun p => if p.1 == k2 then (k2, v) else p) t) =
      List.find? (fun p => p.1 == k) t := by
  induction t with
  | nil => rfl
  | cons p t ih =>
    rw [List.map_cons]
    by_cases hpk : p.1 = k
    · have hfp : (if p.1 == k2 then ((k2, v) : String × α) else p) = p := by
        rw [if_neg]
        simp only [beq_iff_eq, hpk]
        exact h
      have hb : ((fun q : String × α => q.1 == k) p = true) := by simp [hpk]
      rw [hfp,
        List.find?_cons_of_pos (p := fun q : String × α => q.1 == k) (a := p) _ hb,
        List.find?_cons_of_pos (p := fun q : String × α => q.1 == k) (a := p) _ hb]
    · have hbL : ¬ ((fun q : String × α => q.1 == k)
          (if p.1 == k2 then (k2, v) else p) = true) := by
        by_cases hpk2 : p.1 = k2
        · simp only [hpk2, beq_self_eq_true, if_true, beq_iff_eq]
          exact fun he => h he.symm
        · simp [hpk2, hpk]
      have hbR : ¬ ((fun q : String × α => q.1 == k) p = true) := by simp [hpk]
      rw [List.find?_cons_of_neg (p := fun q : String × α => q.1 == k)
            (a := if p.1 == k2 then (k2, v) else p) _ hbL,
          List.find?_cons_of_neg (p := fun q : String × α => q.1 == k) (a := p) _ hbR]
      exact ih

lemma find?_append_single_ne {α : Type} (t : List (String × α))
    (k k2 : String) (v : α) (h : k ≠ k2) :
    List.find? (fun p => p.1 == k) (t ++ [(k2, v)]) =
      List.find? (fun p => p.1 == k) t := by
  induction t with
  | nil =>
    simp only [List.nil_append, List.find?_nil]
    rw [List.find?_cons_of_neg (p := fun q : String × α => q.1 == k)
          (a := ((k2, v) : String × α)) _ (by
        simp only [beq_iff_eq]
        exact fun he => h he.symm),
      List.find?_nil]
  | cons p t ih =>
    rw [List.cons_append]
    by_cases hpk : p.1 = k
    · have hb : ((fun q : String × α => q.1 == k) p = true) := by simp [hpk]
      rw [List.find?_cons_of_pos (p := fun q : String × α => q.1 == k) (a := p) _ hb,
          List.find?_cons_of_pos (p := fun q : String × α => q.1 == k) (a := p) _ hb]
    · have hb : ¬ ((fun q : String × α => q.1 == k) p = true) := by simp [hpk]
      rw [List.find?_cons_of_neg (p := fun q : String × α => q.1 == k) (a := p) _ hb,
          List.find?_cons_of_neg (p := fun q : String × α => q.1 == k) (a := p) _ hb]
      exact ih

lemma objGet_objSet_ne {α : Type} (o : JSObj α) (k k2 : String) (v : α)
    (h : k ≠ k2) : objGet (objSet o k2 v) k = objGet o k := by
  unfold objGet objSet
  by_cases hany : List.any o (fun p => p.1 == k2) = true
  · rw [if_pos hany, find?_map_set_ne o k k2 v h]
  · rw [if_neg hany, find?_append_single_ne o k k2 v h]

lemma pushCost_keys (obj : JSObj (List ReportEntry)) (c : CostRecord)
    (h : c.category ∈ List.map Prod.fst obj) :
    ∃ obj2, pushCost obj c = some obj2 ∧
      List.map Prod.fst obj2 = List.map Prod.fst obj := by
  unfold pushCost
  obtain ⟨arr, harr⟩ := Option.isSome_iff_exists.mp (objGet_isSome_of_mem obj c.category h)
  rw [harr]
  exact ⟨_, rfl, objSet_keys obj c.category _ h⟩

lemma groupCosts_aux (costs : List CostRecord) (obj : JSObj (List ReportEntry))
    (h : ∀ c ∈ costs, c.category ∈ List.map Prod.fst obj) :
    ∃ g, List.foldlM pushCost obj costs = some g ∧
      List.map Prod.fst g = List.map Prod.fst obj := by
  induction costs generalizing obj with
  | nil => exact ⟨obj, rfl, rfl⟩
  | cons c t ih =>
    obtain ⟨obj2, hpush, hkeys⟩ := pushCost_keys obj c (h c (by simp))
    obtain ⟨g, hfold, hgkeys⟩ := ih obj2 (fun c' hc' => hkeys ▸ h c' (by simp [hc']))
    refine ⟨g, ?_, hgkeys.trans hkeys⟩
    simp only [List.foldlM_cons, hpush]
    exact hfold

lemma pushCost_objGet_ne (obj : JSObj (List ReportEntry)) (c : CostRecord)
    (obj2 : JSObj (List ReportEntry)) (k : String)
    (hpush : pushCost obj c = some obj2) (hne : k ≠ c.category) :
    objGet obj2 k = objGet obj k := by
  unfold pushCost at hpush
  cases hget : objGet obj c.category with
  | none => rw [hget] at hpush; exact absurd hpush (by simp)
  | some arr =>
    rw [hget] at hpush
    have : obj2 = objSet obj c.category (arr ++ [⟨c.sum, c.description, c.date.day⟩]) := by
      injection hpush with h2
      exact h2.symm
    rw [this]
    exact objGet_objSet_ne obj k c.category _ hne

lemma groupCosts_untouched (costs : List CostRecord)
    (obj g : JSObj (List ReportEntry)) (k : String)
    (hfold : List.foldlM pushCost obj costs = some g)
    (h : ∀ c ∈ costs, c.category ≠ k) :
    objGet g k = objGet obj k := by
  induction costs generalizing obj with
  | nil =>
    simp only [List.foldlM_nil] at hfold
    injection hfold with h2
    rw [h2]
  | cons c t ih =>
    simp only [List.foldlM_cons] at hfold
    cases hpush : pushCost obj c with
    | none => rw [hpush] at hfold; exact absurd hfold (by simp)
    | some obj2 =>
      rw [hpush] at hfold
      have h1 := ih obj2 hfold (fun c' hc' => h c' (by simp [hc']))
      rw [h1]
      exact pushCost_objGet_ne obj c obj2 k hpush
        (fun he => h c (by simp) he.symm)

lemma initGrouped_keys : List.map Prod.fst initGrouped = allowedCategories := by
  rfl

/-!
## Claim theorems
-/

/-- Claim C1.  The claim states the monthly report's date filter is
inclusive of the whole first and last calendar day of the month.  The
code computes `endDate = new Date(year, month, 0)`, the last calendar
day at midnight (its first instant), and filters with `$lte endDate`,
so an expense dated on the last calendar day at any instant after
midnight is excluded.  This theorem evaluates the filter at the
boundaries for January 2025 and leap February 2024: the first day is
included at any time of day, the day before the first and the day after
the last are excluded as claimed, February 29 of a leap year is a valid
range end — but an expense dated noon of the last calendar day is
excluded, and a whole report for a user whose only expense of the month
is dated noon of its last day comes back with an empty `food` list. -/
theorem fetchMonthlyReport_last_day_boundary_bug :
    inReportRange 2025 1 ⟨2025, 1, 1, 0⟩ = true ∧
    inReportRange 2025 1 ⟨2025, 1, 1, 43200000⟩ = true ∧
    inReportRange 2025 1 ⟨2024, 12, 31, 86399999⟩ = false ∧
    inReportRange 2025 1 ⟨2025, 2, 1, 0⟩ = false ∧
    inReportRange 2024 2 ⟨2024, 2, 29, 0⟩ = true ∧
    inReportRange 2024 2 ⟨2024, 3, 1, 0⟩ = false ∧
    inReportRange 2025 1 ⟨2025, 1, 31, 0⟩ = true ∧
    inReportRange 2025 1 ⟨2025, 1, 31, 43200000⟩ = false ∧
    fetchMonthlyReport 7 2025 1
        [⟨1, "milk", "food", 7, 1, 8, ⟨2025, 1, 31, 43200000⟩⟩] =
      .ok 200 ⟨7, 2025, 1,
        [("food", []), ("health", []), ("housing", []),
         ("sport", []), ("education", [])]⟩ := by
  decide

/-- Claim C2.  For every user id, year, month and Cost collection whose
records carry schema-valid categories, the monthly report succeeds and
its `costs` field is the ordered sequence of exactly five single-key
objects keyed `food, health, housing, sport, education`, and every
category none of the fetched expenses belongs to — in particular every
category when the user has no matching expenses — is mapped to the
empty sequence. -/
theorem fetchMonthlyReport_five_fixed_categories
    (id : ℚ) (year month : Nat) (costs : List CostRecord)
    (hcat : ∀ c ∈ costs, c.category ∈ allowedCategories) :
    ∃ d, fetchMonthlyReport id year month costs = .ok 200 d ∧
      d.userid = id ∧ d.year = year ∧ d.month = month ∧
      List.map Prod.fst d.costs = allowedCategories ∧
      d.costs.length = 5 ∧
      (∀ cat ∈ allowedCategories,
        (∀ c ∈ List.filter
            (fun c => c.userid == id && inReportRange year month c.date) costs,
          c.category ≠ cat) →
        objGet d.costs cat = some []) := by
  have hsub : ∀ c ∈ List.filter
      (fun c => c.userid == id && inReportRange year month c.date) costs,
      c.category ∈ List.map Prod.fst initGrouped := by
    intro c hc
    rw [initGrouped_keys]
    exact hcat c (List.mem_of_mem_filter hc)
  obtain ⟨g, hfold, hgk⟩ := groupCosts_aux _ initGrouped hsub
  refine ⟨⟨id, year, month, g⟩, ?_, rfl, rfl, rfl, ?_, ?_, ?_⟩
  · unfold fetchMonthlyReport groupCosts
    rw [hfold]
  · exact hgk.trans initGrouped_keys
  · have : (List.map Prod.fst g).length = 5 := by
      rw [hgk.trans initGrouped_keys]
      rfl
    rw [← this, List.length_map]
  · intro cat hmem hnone
    have h1 := groupCosts_untouched _ initGrouped g cat hfold hnone
    rw [h1]
    fin_cases hmem <;> rfl

/-- Witness for C2 at a concrete input: a user with zero matching
expenses still gets all five categories. -/
theorem fetchMonthlyReport_five_fixed_categories_witness :
    ∃ d, fetchMonthlyReport 7 2025 2 [] = .ok 200 d ∧
      d.userid = 7 ∧ d.year = 2025 ∧ d.month = 2 ∧
      List.map Prod.fst d.costs = allowedCategories ∧
      d.costs.length = 5 ∧
      (∀ cat ∈ allowedCategories,
        (∀ c ∈ List.filter
            (fun c => c.userid == 7 && inReportRange 2025 2 c.date) ([] : List CostRecord),
          c.category ≠ cat) →
        objGet d.costs cat = some []) :=
  fetchMonthlyReport_five_fixed_categories 7 2025 2 [] (by simp)

/-- Claim C3.  When the `userid` of an expense-creation input resolves
to no existing User, `createCost` returns status 404 with message
"User not found. Cannot add cost." and the Cost collection is returned
exactly as it was: the existence check precedes the write, so nothing is
persisted on this path. -/
theorem createCost_user_not_found
    (users : List UserRecord) (costs : List CostDoc)
    (newOid : Nat) (now : ℚ) (cd : CostData)
    (h : ∀ u ∈ users, u.id ≠ cd.userid) :
    createCost users costs newOid now cd =
      (.err 404 "User not found. Cannot add cost.", costs) := by
  unfold createCost
  have hnone : users.find? (fun u => u.id == cd.userid) = none :=
    List.find?_eq_none.mpr (fun u hu => by simp [h u hu])
  rw [hnone]

/-- Witness for C3 at a concrete input: no user has id 999999, the call
fails with 404 and the collection stays empty. -/
theorem createCost_user_not_found_witness :
    createCost [⟨1, 1001, "A", "B", 0, "single"⟩] [] 5 0
        ⟨"milk", "food", 999999, 8, .undefined⟩ =
      (.err 404 "User not found. Cannot add cost.", []) :=
  createCost_user_not_found [⟨1, 1001, "A", "B", 0, "single"⟩] [] 5 0
    ⟨"milk", "food", 999999, 8, .undefined⟩ (by decide)

/-- Claim C4.  On every input quadruple, `validateCostInput` returns
exactly the first failing rule's message under the fixed rule order
(description, category, userId, sum), and returns `null` precisely when
all four rules pass.  The embedded function is total and effect-free,
reflecting that the source is a pure function that never throws. -/
theorem validateCostInput_first_failure_wins (d c u s : JSValue) :
    validateCostInput d c u s = firstFailure (ruleChecks d c u s) ∧
    (validateCostInput d c u s = none ↔
      (validDescription d = true ∧ validCategory c = true ∧
       validPositiveNumber u = true ∧ validPositiveNumber s = true)) :=
  ⟨validate_eq_firstFailure d c u s, validate_none_iff d c u s⟩

/-- Claim C5.  For an existing user, `fetchUserDetails` always answers
status 200 with a data object carrying a numeric `total` field equal to
the sum of the `sum` fields of all expenses matching the user's id, and
that total is `0` — not an error and not an absent field — when no
expense matches. -/
theorem fetchUserDetails_lifetime_total
    (users : List UserRecord) (costs : List CostRecord)
    (userId : ℚ) (u : UserRecord)
    (h : users.find? (fun x => x.id == userId) = some u) :
    fetchUserDetails users costs userId =
      .ok 200 ⟨u.first_name, u.last_name, u.id,
        (List.map (fun c => c.sum)
          (List.filter (fun c => c.userid == u.id) costs)).sum⟩ ∧
    (List.filter (fun c => c.userid == u.id) costs = [] →
      fetchUserDetails users costs userId =
        .ok 200 ⟨u.first_name, u.last_name, u.id, 0⟩) := by
  have hmain : fetchUserDetails users costs userId =
      .ok 200 ⟨u.first_name, u.last_name, u.id,
        (List.map (fun c => c.sum)
          (List.filter (fun c => c.userid == u.id) costs)).sum⟩ := by
    unfold fetchUserDetails
    rw [h]
    dsimp only
    by_cases he : (List.filter (fun c => c.userid == u.id) costs).isEmpty
    · rw [if_pos he]
      rw [List.isEmpty_iff] at he
      rw [he]
      rfl
    · rw [if_neg he]
  refine ⟨hmain, fun hemp => ?_⟩
  rw [hmain, hemp]
  rfl

/-- Witness for C5 at concrete inputs: expenses summing `[8, 12.5, 3]`
give total `23.5`, and the same user with no expenses gets total `0`. -/
theorem fetchUserDetails_lifetime_total_witness :
    fetchUserDetails [⟨1, 7, "A", "B", 0, "single"⟩]
        [⟨1, "a", "food", 7, 1, 8, ⟨2025, 1, 1, 0⟩⟩,
         ⟨2, "b", "food", 7, 1, 12.5, ⟨2025, 1, 1, 0⟩⟩,
         ⟨3, "c", "sport", 7, 1, 3, ⟨2025, 1, 1, 0⟩⟩] 7 =
      .ok 200 ⟨"A", "B", 7, 23.5⟩ ∧
    fetchUserDetails [⟨1, 7, "A", "B", 0, "single"⟩] [] 7 =
      .ok 200 ⟨"A", "B", 7, 0⟩ := by
  constructor
  · rw [(fetchUserDetails_lifetime_total [⟨1, 7, "A", "B", 0, "single"⟩]
        [⟨1, "a", "food", 7, 1, 8, ⟨2025, 1, 1, 0⟩⟩,
         ⟨2, "b", "food", 7, 1, 12.5, ⟨2025, 1, 1, 0⟩⟩,
         ⟨3, "c", "sport", 7, 1, 3, ⟨2025, 1, 1, 0⟩⟩] 7
        ⟨1, 7, "A", "B", 0, "single"⟩ (by decide)).1]
    norm_num [List.filter]
  · exact (fetchUserDetails_lifetime_total [⟨1, 7, "A", "B", 0, "single"⟩] [] 7
      ⟨1, 7, "A", "B", 0, "single"⟩ (by decide)).2 rfl

/-- Claim C6.  When a user-creation input's `id` equals the id of an
existing User, `createUser` answers the duplicate-id rejection (status
400 "User ID already exists.", the spec's Conflict outcome) computed by
the `findOne` pre-check that runs before any write, and the User
collection — in particular the pre-existing record — is returned
unchanged. -/
theorem createUser_duplicate_id_conflict
    (users : List UserRecord) (newOid : Nat) (ud : UserData)
    (h : ∃ u ∈ users, u.id = ud.id) :
    createUser users newOid ud = (.err 400 "User ID already exists.", users) := by
  unfold createUser
  obtain ⟨u, hu, hid⟩ := h
  have hsome : (users.find? (fun x => x.id == ud.id)).isSome :=
    List.find?_isSome.mpr ⟨u, hu, by simp [hid]⟩
  cases hf : users.find? (fun x => x.id == ud.id) with
  | none => rw [hf] at hsome; exact absurd hsome (by simp)
  | some w => rfl

/-- Witness for C6 at a concrete input: id 5 is already taken, the call
yields the Conflict result and the collection keeps the original
record. -/
theorem createUser_duplicate_id_conflict_witness :
    createUser [⟨1, 5, "A", "B", 0, "single"⟩] 9 ⟨5, "C", "D", 0, "married"⟩ =
      (.err 400 "User ID already exists.", [⟨1, 5, "A", "B", 0, "single"⟩]) :=
  createUser_duplicate_id_conflict [⟨1, 5, "A", "B", 0, "single"⟩] 9
    ⟨5, "C", "D", 0, "married"⟩ ⟨⟨1, 5, "A", "B", 0, "single"⟩, by simp, rfl⟩

/-- Claim C7.  `updateCost` answers the 404 "Cost not found." result
exactly when no record's storage identity matches `costId`; when a
record matches, the caller-supplied partial fields are merged verbatim —
the merged values are whatever the caller sent, for every possible
description, category, sum and date, with no validation rule consulted
(unlike creation) — and the updated document is returned with
status 200. -/
theorem updateCost_partial_merge_no_validation
    (costs : List CostRecord) (costId : Nat) (upd : CostUpdate) :
    ((updateCost costs costId upd).1 = .err 404 "Cost not found." ↔
      ∀ c ∈ costs, c.oid ≠ costId) ∧
    ((∀ c ∈ costs, c.oid ≠ costId) →
      updateCost costs costId upd = (.err 404 "Cost not found.", costs)) ∧
    (∀ found, costs.find? (fun c => c.oid == costId) = some found →
      updateCost costs costId upd =
        (.ok 200
          { oid := found.oid,
            description := upd.description.getD found.description,
            category := upd.category.getD found.category,
            userid := found.userid,
            user := found.user,
            sum := upd.sum.getD found.sum,
            date := upd.date.getD found.date },
         List.map (fun c => if c.oid == costId then applyUpdate c upd else c) costs)) := by
  refine ⟨?_, ?_, ?_⟩
  · cases hfind : costs.find? (fun c => c.oid == costId) with
    | none =>
      constructor
      · intro _ c hc
        have := List.find?_eq_none.mp hfind c hc
        simpa using this
      · intro _
        unfold updateCost
        rw [hfind]
    | some w =>
      have hw : (w.oid == costId) = true :=
        List.find?_some (p := fun c : CostRecord => c.oid == costId) hfind
      have hwmem : w ∈ costs := List.mem_of_find?_eq_some hfind
      constructor
      · intro hres
        unfold updateCost at hres
        rw [hfind] at hres
        exact absurd hres (by simp)
      · intro hno
        exact absurd (eq_of_beq hw) (hno w hwmem)
  · intro hno
    unfold updateCost
    rw [List.find?_eq_none.mpr (fun c hc => by simp [hno c hc])]
  · intro found hf
    unfold updateCost
    rw [hf]
    rfl

/-- Witness for C7 at a concrete input: the partial object carries an
empty description, the off-whitelist category "travel" and the negative
sum -5 — all of which creation-time validation rejects — yet the update
succeeds and stores them verbatim; the date, not supplied, is kept. -/
theorem updateCost_partial_merge_no_validation_witness :
    updateCost [⟨1, "milk", "food", 7, 1, 8, ⟨2025, 1, 1, 0⟩⟩] 1
        ⟨some "", some "travel", some (-5), none⟩ =
      (.ok 200 ⟨1, "", "travel", 7, 1, -5, ⟨2025, 1, 1, 0⟩⟩,
       [⟨1, "", "travel", 7, 1, -5, ⟨2025, 1, 1, 0⟩⟩]) := by
  have h := (updateCost_partial_merge_no_validation
      [⟨1, "milk", "food", 7, 1, 8, ⟨2025, 1, 1, 0⟩⟩] 1
      ⟨some "", some "travel", some (-5), none⟩).2.2
      ⟨1, "milk", "food", 7, 1, 8, ⟨2025, 1, 1, 0⟩⟩ (by decide)
  rw [h]
  decide

/-- Claim C8.  On the success path, `createCost` returns status 201 with
a payload that is exactly the five semantic fields of the saved record —
keys `description, category, userid, sum, date` carrying the saved
record's values, which are the validated input's values — and neither
the record's storage identity key `_id` nor the owning user's storage
reference key `user` appears in it. -/
theorem createCost_payload_semantic_fields
    (users : List UserRecord) (costs : List CostDoc) (newOid : Nat) (now : ℚ)
    (cd : CostData) (u : UserRecord)
    (h : users.find? (fun x => x.id == cd.userid) = some u) :
    ∃ saved, createCost users costs newOid now cd =
        (.ok 201 (costPayload saved), costs ++ [saved]) ∧
      List.map Prod.fst (costPayload saved) =
        ["description", "category", "userid", "sum", "date"] ∧
      "_id" ∉ List.map Prod.fst (costPayload saved) ∧
      "user" ∉ List.map Prod.fst (costPayload saved) ∧
      objGet (costPayload saved) "description" = some (.str cd.description) ∧
      objGet (costPayload saved) "category" = some (.str cd.category) ∧
      objGet (costPayload saved) "userid" = some (.num cd.userid) ∧
      objGet (costPayload saved) "sum" = some (.num cd.sum) ∧
      objGet (costPayload saved) "date" = some saved.date := by
  unfold createCost
  rw [h]
  refine ⟨_, rfl, rfl, ?_, ?_, rfl, rfl, rfl, rfl, rfl⟩ <;> simp [costPayload]

/-- Witness for C8 at a concrete input. -/
theorem createCost_payload_semantic_fields_witness :
    ∃ saved, createCost [⟨3, 7, "A", "B", 0, "single"⟩] [] 11 99
        ⟨"milk", "food", 7, 8, .undefined⟩ =
        (.ok 201 (costPayload saved), [] ++ [saved]) ∧
      List.map Prod.fst (costPayload saved) =
        ["description", "category", "userid", "sum", "date"] ∧
      "_id" ∉ List.map Prod.fst (costPayload saved) ∧
      "user" ∉ List.map Prod.fst (costPayload saved) ∧
      objGet (costPayload saved) "description" = some (.str "milk") ∧
      objGet (costPayload saved) "category" = some (.str "food") ∧
      objGet (costPayload saved) "userid" = some (.num 7) ∧
      objGet (costPayload saved) "sum" = some (.num 8) ∧
      objGet (costPayload saved) "date" = some saved.date :=
  createCost_payload_semantic_fields [⟨3, 7, "A", "B", 0, "single"⟩] [] 11 99
    ⟨"milk", "food", 7, 8, .undefined⟩ ⟨3, 7, "A", "B", 0, "single"⟩ (by decide)

/-- Claim C10.  `createCost` stores `date || Date.now()`: whenever the
supplied date is falsy — and `undefined`, `null`, the number `0`, the
empty string and `false` are all falsy — the saved record carries the
current instant instead of the supplied value.  In particular a date
supplied as the numeric epoch timestamp `0` is silently replaced by the
creation time rather than stored as given. -/
theorem createCost_falsy_date_defaults_to_now
    (users : List UserRecord) (costs : List CostDoc) (newOid : Nat) (now : ℚ)
    (cd : CostData) (u : UserRecord)
    (h : users.find? (fun x => x.id == cd.userid) = some u)
    (hd : jsTruthy cd.date = false) :
    (∃ saved, createCost users costs newOid now cd =
        (.ok 201 (costPayload saved), costs ++ [saved]) ∧
      saved.date = .num now) ∧
    jsTruthy .undefined = false ∧ jsTruthy .null = false ∧
    jsTruthy (.num 0) = false ∧ jsTruthy (.str "") = false ∧
    jsTruthy (.jbool false) = false := by
  refine ⟨?_, by decide, by decide, by decide, by decide, by decide⟩
  unfold createCost
  rw [h]
  exact ⟨_, rfl, by simp [hd]⟩

/-- Witness for C10 at a concrete input: the caller supplies the epoch
timestamp `0` as date; the saved record's date is the creation instant,
not the supplied value. -/
theorem createCost_falsy_date_defaults_to_now_witness :
    ((∃ saved, createCost [⟨3, 7, "A", "B", 0, "single"⟩] [] 11 1735689600000
        ⟨"milk", "food", 7, 8, .num 0⟩ =
        (.ok 201 (costPayload saved), [] ++ [saved]) ∧
      saved.date = .num 1735689600000) ∧
    jsTruthy .undefined = false ∧ jsTruthy .null = false ∧
    jsTruthy (.num 0) = false ∧ jsTruthy (.str "") = false ∧
    jsTruthy (.jbool false) = false) ∧
    JSValue.num 1735689600000 ≠ JSValue.num 0 :=
  ⟨createCost_falsy_date_defaults_to_now [⟨3, 7, "A", "B", 0, "single"⟩] [] 11
      1735689600000 ⟨"milk", "food", 7, 8, .num 0⟩ ⟨3, 7, "A", "B", 0, "single"⟩
      (by decide) (by decide),
   by decide⟩

/-!
## Numeric coercion of report query parameters

The `getMonthlyReport` controller receives `id`, `year` and `month` as
query values and guards them with `isNaN` and numeric range comparisons,
both of which coerce through `Number(...)`.  The coercion is modelled on
the decimal-literal fragment a query string can carry (optional sign,
digits, optional decimal point); `none` stands for NaN.
-/

/-- Value of a digit list read in base 10. -/
def digitsVal (cs : List Char) : Nat :=
  List.foldl (fun n c => 10 * n + (c.toNat - 48)) 0 cs

/-- Parses an unsigned decimal literal: digits, or digits around a
single decimal point (`"12"`, `"12."`, `".5"`, `"12.5"`); anything else
is NaN.  Hexadecimal, exponent and infinity forms are outside the
fragment the modelled callers produce. -/
def parseDecimalChars (cs : List Char) : Option ℚ :=
  match cs.dropWhile (fun c => c != '.') with
  | [] =>
      if cs.isEmpty then none
      else if cs.all Char.isDigit then some ((digitsVal cs : ℚ)) else none
  | _ :: fp =>
      if fp.contains '.' then none
      else
        if (cs.takeWhile (fun c => c != '.')).isEmpty && fp.isEmpty then none
        else if (cs.takeWhile (fun c => c != '.')).all Char.isDigit &&
            fp.all Char.isDigit then
          some ((digitsVal (cs.takeWhile (fun c => c != '.')) : ℚ) +
            (digitsVal fp : ℚ) / (10 : ℚ) ^ fp.length)
        else none

/-- Models `Number(s)` for a string: whitespace-trimmed, the empty
string coerces to `0`, otherwise an optionally signed decimal literal;
`none` is NaN. -/
def parseJSNumber (s : String) : Option ℚ :=
  match (jsTrim s).data with
  | [] => some 0
  | '-' :: rest => (parseDecimalChars rest).map (fun q => -q)
  | '+' :: rest => parseDecimalChars rest
  | cs => parseDecimalChars cs

/-- Models the `Number(v)` coercion used by `isNaN` and by relational
comparison against a number: `none` is NaN. -/
def jsToNumber : JSValue → Option ℚ
  | .num q => some q
  | .nan => none
  | .jbool b => some (if b then 1 else 0)
  | .null => some 0
  | .undefined => none
  | .str s => parseJSNumber s

/-- Models the global `isNaN(v)`. -/
def jsIsNaN (v : JSValue) : Bool :=
  (jsToNumber v).isNone

/-- Models `v < bound` for a numeric bound: false when `v` coerces to
NaN. -/
def jsNumLt (v : JSValue) (bound : ℚ) : Bool :=
  match jsToNumber v with
  | some q => decide (q < bound)
  | none => false

/-- Models `v > bound` for a numeric bound: false when `v` coerces to
NaN. -/
def jsNumGt (v : JSValue) (bound : ℚ) : Bool :=
  match jsToNumber v with
  | some q => decide (bound < q)
  | none => false

/-- Shallow embedding of the query-parameter guard of
`getMonthlyReport(req, res)` from costModel.js, with the current year
(`new Date().getFullYear()`) passed explicitly: the first failing check
produces its 400 message, and `none` means the guard lets the request
through to `fetchMonthlyReport`. -/
def reportParamsCheck (currentYear : ℚ) (id year month : JSValue) : Option String :=
  if !(jsTruthy id) || jsIsNaN id then
    some "Valid user ID is required."
  else if !(jsTruthy year) || jsIsNaN year || jsNumLt year 2000 ||
      jsNumGt year currentYear then
    some "Valid year is required."
  else if !(jsTruthy month) || jsIsNaN month || jsNumLt month 1 ||
      jsNumGt month 12 then
    some "Month must be between 1 and 12."
  else
    none

/-- Claim C9.  `validateCostInput` requires `userid` and `sum` to be of
JS number type: with a string in either position — however
numeric-looking — validation never succeeds, and with all other rules
passing it fails precisely on the string-typed field's message.  The
report query guard, by contrast, accepts numeric-looking strings: with
current year 2025 the string parameters id "8", year "2024", month "3"
pass. -/
theorem validateCostInput_rejects_numeric_strings :
    (∀ (d c : JSValue) (t : String) (s : JSValue),
      validateCostInput d c (.str t) s ≠ none) ∧
    (∀ (d c u : JSValue) (t : String),
      validateCostInput d c u (.str t) ≠ none) ∧
    validateCostInput (.str "milk") (.str "food") (.str "8") (.num 8) =
      some "User ID must be a positive number." ∧
    validateCostInput (.str "milk") (.str "food") (.num 1001) (.str "8") =
      some "Sum must be a positive number." ∧
    reportParamsCheck 2025 (.str "8") (.str "2024") (.str "3") = none := by
  refine ⟨?_, ?_, by decide, by decide, by decide⟩
  · intro d c t s hnone
    have hall := (validate_none_iff d c (.str t) s).mp hnone
    have hfalse : validPositiveNumber (.str t) = false := rfl
    rw [hfalse] at hall
    exact Bool.false_ne_true hall.2.2.1
  · intro d c u t hnone
    have hall := (validate_none_iff d c u (.str t)).mp hnone
    have hfalse : validPositiveNumber (.str t) = false := rfl
    rw [hfalse] at hall
    exact Bool.false_ne_true hall.2.2.2

/-- Witness for C4 at a concrete input. -/
theorem validateCostInput_first_failure_wins_witness :
    validateCostInput (.str "milk") (.str "food") (.num 5) (.num 8) =
      firstFailure (ruleChecks (.str "milk") (.str "food") (.num 5) (.num 8)) ∧
    (validateCostInput (.str "milk") (.str "food") (.num 5) (.num 8) = none ↔
      (validDescription (.str "milk") = true ∧ validCategory (.str "food") = true ∧
       validPositiveNumber (.num 5) = true ∧ validPositiveNumber (.num 8) = true)) :=
  validateCostInput_first_failure_wins (.str "milk") (.str "food") (.num 5) (.num 8)

/-- Witness for C9 at a concrete input: the numeric-looking string "8"
in the sum position is rejected. -/
theorem validateCostInput_rejects_numeric_strings_witness :
    validateCostInput (.str "milk") (.str "food") (.num 1001) (.str "8") ≠ none :=
  validateCostInput_rejects_numeric_strings.2.1 (.str "milk") (.str "food")
    (.num 1001) "8"
